import Mathlib

/-!
Shallow embedding of the budget-gated fetch pipeline of the x-research-skill
repository (`src/lib/usage.ts`, `src/lib/api.ts`, and the CLI driver), with
theorems settling the claims of its specification.

Modelling conventions:
* Money amounts (`number` USD values in the source) are exact rationals `ℚ`;
  the specification states the accounting invariants over exact arithmetic.
* Calendar days (`YYYY-MM-DD` strings compared for equality in the source) are
  modelled as natural numbers — day indices under the order-preserving
  bijection between date strings and day counts.  ISO timestamps that are
  stored but never inspected (`lastReset`) are likewise opaque naturals.
* File persistence (`loadBudget`/`saveBudget`) is modelled by explicit state
  passing: the persisted store is an `Option BudgetConfig` (`none` = file
  absent or unparsable, which the source treats as "start fresh").
-/

namespace XSearch

/-- Price per post read in USD: the source multiplies `postReads * 0.005`. -/
def UNIT_PRICE : ℚ := 5 / 1000

/-- The `localTracking` block of `BudgetConfig` in `src/lib/usage.ts`. -/
structure LocalTracking where
  today : ℕ
  todayPostReads : ℕ
  todayCost : ℚ
  rollingPostReads : ℕ
  rollingCost : ℚ
  lastReset : ℕ
deriving DecidableEq, Repr

/-- The `BudgetConfig` interface of `src/lib/usage.ts`. -/
structure BudgetConfig where
  dailyLimitUsd : ℚ
  monthlyLimitUsd : ℚ
  warnThreshold : ℚ
  localTracking : LocalTracking
deriving DecidableEq, Repr

/-- The `DEFAULT_BUDGET` value of `src/lib/usage.ts`: no limits, 0.8 warn
threshold, zeroed accounting stamped with the current day and time. -/
def DEFAULT_BUDGET (today nowTs : ℕ) : BudgetConfig :=
  { dailyLimitUsd := 0
    monthlyLimitUsd := 0
    warnThreshold := 8 / 10
    localTracking :=
      { today := today
        todayPostReads := 0
        todayCost := 0
        rollingPostReads := 0
        rollingCost := 0
        lastReset := nowTs } }

/-- Lazy day-rollover: `loadBudget` and `recordUsage` both reset the daily
counters in memory when the stored `today` differs from the current day
(`if (raw.localTracking?.today !== today) { ... today, todayPostReads: 0,
todayCost: 0 }` in the source). -/
def rolloverDaily (b : BudgetConfig) (today : ℕ) : BudgetConfig :=
  if b.localTracking.today ≠ today then
    { b with localTracking :=
        { b.localTracking with
            today := today
            todayPostReads := 0
            todayCost := 0 } }
  else b

/-- The `loadBudget` function of `src/lib/usage.ts`: a missing or unparsable
store yields `DEFAULT_BUDGET`; otherwise the stored state with lazy
day-rollover applied in memory (nothing is written back). -/
def loadBudget (store : Option BudgetConfig) (today nowTs : ℕ) : BudgetConfig :=
  match store with
  | none => DEFAULT_BUDGET today nowTs
  | some raw => rolloverDaily raw today

/-- Which warning string `recordUsage` returns (the string formatting with
`toFixed` is rendering; the constructor records which branch fired).
`monthlyApproaching` is never produced by the source; it exists so the
specification's predicted warning rule can be written down and compared. -/
inductive Warning where
  | dailyExceeded
  | dailyApproaching
  | monthlyExceeded
  | monthlyApproaching
deriving DecidableEq, Repr

/-- The `recordUsage` function of `src/lib/usage.ts`, acting on the loaded
budget: apply lazy day-rollover, add `postReads` and `postReads * 0.005` to
the daily and rolling counters, then return the updated (persisted) state
together with the first warning whose condition holds, checked in source
order: daily exceeded, daily approaching, monthly exceeded. -/
def recordUsage (b : BudgetConfig) (postReads : ℕ) (today : ℕ) :
    BudgetConfig × Option Warning :=
  let cost : ℚ := postReads * UNIT_PRICE
  let b1 := rolloverDaily b today
  let lt := b1.localTracking
  let lt1 : LocalTracking :=
    { lt with
        todayPostReads := lt.todayPostReads + postReads
        todayCost := lt.todayCost + cost
        rollingPostReads := lt.rollingPostReads + postReads
        rollingCost := lt.rollingCost + cost }
  let b2 := { b1 with localTracking := lt1 }
  let warn : Option Warning :=
    if b2.dailyLimitUsd > 0 ∧ lt1.todayCost ≥ b2.dailyLimitUsd then
      some .dailyExceeded
    else if b2.dailyLimitUsd > 0 ∧
        lt1.todayCost ≥ b2.dailyLimitUsd * b2.warnThreshold then
      some .dailyApproaching
    else if b2.monthlyLimitUsd > 0 ∧ lt1.rollingCost ≥ b2.monthlyLimitUsd then
      some .monthlyExceeded
    else none
  (b2, warn)

/-- Which budget cap a denied admission check names. -/
inductive DenyReason where
  | daily
  | monthly
deriving DecidableEq, Repr

/-- The `checkBudget` function of `src/lib/usage.ts`, acting on the loaded
budget: deny when a nonzero daily cap would be exceeded by
`todayCost + estimatedCost`, else when a nonzero monthly cap would be exceeded
by `rollingCost + estimatedCost`, else allow (`none`). -/
def checkBudget (b : BudgetConfig) (estimatedPostReads : ℕ) : Option DenyReason :=
  let estimatedCost : ℚ := estimatedPostReads * UNIT_PRICE
  if b.dailyLimitUsd > 0 ∧
      b.localTracking.todayCost + estimatedCost > b.dailyLimitUsd then
    some .daily
  else if b.monthlyLimitUsd > 0 ∧
      b.localTracking.rollingCost + estimatedCost > b.monthlyLimitUsd then
    some .monthly
  else none

/-- The full `checkBudget` call against the persisted store: it loads the
budget (rollover in memory only) and checks; the source contains no
`saveBudget` call on this path, so the store component is returned unchanged. -/
def checkBudgetPersist (store : Option BudgetConfig) (today nowTs : ℕ)
    (estimatedPostReads : ℕ) : Option BudgetConfig × Option DenyReason :=
  (store, checkBudget (loadBudget store today nowTs) estimatedPostReads)

/-- The `usage budget reset` branch of `cmdUsage` in the CLI driver: replaces
`localTracking` with a zeroed block stamped with the current day and a fresh
`lastReset` timestamp, leaving the caps and warn threshold fields alone. -/
def resetBudget (b : BudgetConfig) (today nowTs : ℕ) : BudgetConfig :=
  { b with localTracking :=
      { today := today
        todayPostReads := 0
        todayCost := 0
        rollingPostReads := 0
        rollingCost := 0
        lastReset := nowTs } }

/-- The `usage budget set-daily` branch of `cmdUsage`. -/
def setDailyLimit (b : BudgetConfig) (x : ℚ) : BudgetConfig :=
  { b with dailyLimitUsd := x }

/-- The `usage budget set-monthly` branch of `cmdUsage`. -/
def setMonthlyLimit (b : BudgetConfig) (x : ℚ) : BudgetConfig :=
  { b with monthlyLimitUsd := x }

/-- The warning rule exactly as claim C1 states it, written from the
specification's words (not from the source): "exceeded" when the post-update
cost meets or exceeds the corresponding nonzero cap, "approaching" when it
meets or exceeds `cap * warn_threshold` for a nonzero cap, exceeded before
approaching, daily before monthly. -/
def specC1Warning (b : BudgetConfig) : Option Warning :=
  if b.dailyLimitUsd > 0 ∧ b.localTracking.todayCost ≥ b.dailyLimitUsd then
    some .dailyExceeded
  else if b.dailyLimitUsd > 0 ∧
      b.localTracking.todayCost ≥ b.dailyLimitUsd * b.warnThreshold then
    some .dailyApproaching
  else if b.monthlyLimitUsd > 0 ∧
      b.localTracking.rollingCost ≥ b.monthlyLimitUsd then
    some .monthlyExceeded
  else if b.monthlyLimitUsd > 0 ∧
      b.localTracking.rollingCost ≥ b.monthlyLimitUsd * b.warnThreshold then
    some .monthlyApproaching
  else none

/-- A ledger with only a monthly cap: $1.00 monthly limit, 0.8 warn
threshold, zeroed accounting on day 0. -/
def monthlyOnlyLedger : BudgetConfig :=
  { dailyLimitUsd := 0
    monthlyLimitUsd := 1
    warnThreshold := 8 / 10
    localTracking := ⟨0, 0, 0, 0, 0, 0⟩ }

/-- A ledger with a $1.00 daily cap and 0.8 warn threshold, zeroed accounting
on day 0 (the configuration of the specification's worked examples). -/
def dailyExampleLedger : BudgetConfig :=
  { dailyLimitUsd := 1
    monthlyLimitUsd := 0
    warnThreshold := 8 / 10
    localTracking := ⟨0, 0, 0, 0, 0, 0⟩ }

lemma rolloverDaily_dailyLimitUsd (b : BudgetConfig) (d : ℕ) :
    (rolloverDaily b d).dailyLimitUsd = b.dailyLimitUsd := by
  unfold rolloverDaily; split <;> rfl

lemma rolloverDaily_monthlyLimitUsd (b : BudgetConfig) (d : ℕ) :
    (rolloverDaily b d).monthlyLimitUsd = b.monthlyLimitUsd := by
  unfold rolloverDaily; split <;> rfl

lemma rolloverDaily_warnThreshold (b : BudgetConfig) (d : ℕ) :
    (rolloverDaily b d).warnThreshold = b.warnThreshold := by
  unfold rolloverDaily; split <;> rfl

lemma rolloverDaily_rollingPostReads (b : BudgetConfig) (d : ℕ) :
    (rolloverDaily b d).localTracking.rollingPostReads =
      b.localTracking.rollingPostReads := by
  unfold rolloverDaily; split <;> rfl

lemma rolloverDaily_rollingCost (b : BudgetConfig) (d : ℕ) :
    (rolloverDaily b d).localTracking.rollingCost =
      b.localTracking.rollingCost := by
  unfold rolloverDaily; split <;> rfl

/-- Claim C1 fails as stated: with only a monthly cap ($1.00, warn threshold
0.8), `record(170)` brings the rolling cost to $0.85, which meets the
monthly cap's warn threshold, so the claim's rule predicts an "approaching"
warning — but `recordUsage` has no monthly "approaching" branch and returns
no warning at all. -/
theorem recordUsage_no_monthly_approaching_counterexample :
    (recordUsage monthlyOnlyLedger 170 0).2 = none ∧
    specC1Warning (recordUsage monthlyOnlyLedger 170 0).1 =
      some Warning.monthlyApproaching := by
  norm_num [recordUsage, rolloverDaily, monthlyOnlyLedger, specC1Warning,
    UNIT_PRICE]

/-- Claim C1 (amended): `recordUsage` returns the first warning among
daily-exceeded, daily-approaching, monthly-exceeded whose condition holds on
the post-update state — there is no monthly "approaching" warning.  The
claim's worked example stands: `record(160)` on a $1.00-daily-cap ledger with
warn threshold 0.8 reaches exactly $0.80 and yields the daily "approaching"
warning, not "exceeded". -/
theorem recordUsage_warning_characterisation (b : BudgetConfig) (u d : ℕ) :
    ((recordUsage b u d).2 = some Warning.dailyExceeded ↔
      (b.dailyLimitUsd > 0 ∧
        (recordUsage b u d).1.localTracking.todayCost ≥ b.dailyLimitUsd)) ∧
    ((recordUsage b u d).2 = some Warning.dailyApproaching ↔
      (b.dailyLimitUsd > 0 ∧
        ¬ (recordUsage b u d).1.localTracking.todayCost ≥ b.dailyLimitUsd ∧
        (recordUsage b u d).1.localTracking.todayCost ≥
          b.dailyLimitUsd * b.warnThreshold)) ∧
    ((recordUsage b u d).2 = some Warning.monthlyExceeded ↔
      (¬ (b.dailyLimitUsd > 0 ∧
            (recordUsage b u d).1.localTracking.todayCost ≥ b.dailyLimitUsd) ∧
       ¬ (b.dailyLimitUsd > 0 ∧
            (recordUsage b u d).1.localTracking.todayCost ≥
              b.dailyLimitUsd * b.warnThreshold) ∧
       b.monthlyLimitUsd > 0 ∧
       (recordUsage b u d).1.localTracking.rollingCost ≥ b.monthlyLimitUsd)) ∧
    (recordUsage b u d).2 ≠ some Warning.monthlyApproaching ∧
    (recordUsage dailyExampleLedger 160 0).2 = some Warning.dailyApproaching := by
  refine ⟨?_, ?_, ?_, ?_,
    by norm_num [recordUsage, rolloverDaily, dailyExampleLedger, UNIT_PRICE]⟩ <;>
    · unfold recordUsage
      dsimp only
      split_ifs <;>
        simp_all [rolloverDaily_dailyLimitUsd, rolloverDaily_monthlyLimitUsd,
          rolloverDaily_warnThreshold]

/-- Claim C3: the admission check denies exactly when a nonzero daily cap
would be exceeded by `todayCost + e * unit_price` or a nonzero monthly cap
would be exceeded by `rollingCost + e * unit_price`; it never writes the
persisted store; and on the specification's example ledger ($1.00 daily cap,
$0.75 spent today) `admit(60)` is denied while `admit(40)` is allowed. -/
theorem checkBudget_denies_iff :
    (∀ (b : BudgetConfig) (e : ℕ),
      (checkBudget b e).isSome ↔
        ((b.dailyLimitUsd > 0 ∧
            b.localTracking.todayCost + e * UNIT_PRICE > b.dailyLimitUsd) ∨
         (b.monthlyLimitUsd > 0 ∧
            b.localTracking.rollingCost + e * UNIT_PRICE > b.monthlyLimitUsd))) ∧
    (∀ (store : Option BudgetConfig) (today nowTs e : ℕ),
      (checkBudgetPersist store today nowTs e).1 = store) ∧
    checkBudget (recordUsage dailyExampleLedger 150 0).1 60 =
      some DenyReason.daily ∧
    checkBudget (recordUsage dailyExampleLedger 150 0).1 40 = none := by
  refine ⟨?_,
    fun _ _ _ _ => rfl,
    by norm_num [checkBudget, recordUsage, rolloverDaily, dailyExampleLedger,
      UNIT_PRICE],
    by norm_num [checkBudget, recordUsage, rolloverDaily, dailyExampleLedger,
      UNIT_PRICE]⟩
  intro b e
  unfold checkBudget
  dsimp only
  split_ifs <;> simp_all

lemma recordUsage_fst_today (b : BudgetConfig) (u d : ℕ) :
    (recordUsage b u d).1.localTracking.today = d := by
  unfold recordUsage rolloverDaily
  dsimp only
  split_ifs with h
  · rfl
  · simpa using h

lemma recordUsage_fst_todayPostReads (b : BudgetConfig) (u d : ℕ) :
    (recordUsage b u d).1.localTracking.todayPostReads =
      (if b.localTracking.today = d then b.localTracking.todayPostReads
        else 0) + u := by
  unfold recordUsage rolloverDaily
  dsimp only
  split_ifs <;> simp_all

lemma recordUsage_fst_todayCost (b : BudgetConfig) (u d : ℕ) :
    (recordUsage b u d).1.localTracking.todayCost =
      (if b.localTracking.today = d then b.localTracking.todayCost else 0) +
        u * UNIT_PRICE := by
  unfold recordUsage rolloverDaily
  dsimp only
  split_ifs <;> simp_all

lemma recordUsage_fst_rollingPostReads (b : BudgetConfig) (u d : ℕ) :
    (recordUsage b u d).1.localTracking.rollingPostReads =
      b.localTracking.rollingPostReads + u := by
  unfold recordUsage
  dsimp only
  rw [rolloverDaily_rollingPostReads]

lemma recordUsage_fst_rollingCost (b : BudgetConfig) (u d : ℕ) :
    (recordUsage b u d).1.localTracking.rollingCost =
      b.localTracking.rollingCost + u * UNIT_PRICE := by
  unfold recordUsage
  dsimp only
  rw [rolloverDaily_rollingCost]

/-- Folding `recordUsage` over a list of `(units, day)` events, each call
acting on the state the previous call persisted (warnings discarded). -/
def execRecords (b : BudgetConfig) (ops : List (ℕ × ℕ)) : BudgetConfig :=
  ops.foldl (fun s p => (recordUsage s p.1 p.2).1) b

/-- The day of the last event of the sequence, or `d0` when there is none. -/
def lastDay (d0 : ℕ) (ops : List (ℕ × ℕ)) : ℕ :=
  ops.foldl (fun _ p => p.2) d0

/-- Total units among the events that fall on a given day. -/
def unitsOnDay (ops : List (ℕ × ℕ)) (day : ℕ) : ℕ :=
  ((ops.filter fun p => p.2 = day).map Prod.fst).sum

/-- The rolling cost exactly as claim C2 states it, written from the
specification's words (not from the source): only units recorded within the
trailing 30-day window — fewer than 30 days before `nowDay` — contribute. -/
def specC2RollingCost (ops : List (ℕ × ℕ)) (nowDay : ℕ) : ℚ :=
  (((ops.filter fun p => nowDay < p.2 + 30).map Prod.fst).sum : ℚ) * UNIT_PRICE

lemma execRecords_cons (b : BudgetConfig) (p : ℕ × ℕ) (rest : List (ℕ × ℕ)) :
    execRecords b (p :: rest) = execRecords (recordUsage b p.1 p.2).1 rest :=
  rfl

lemma lastDay_cons (d0 : ℕ) (p : ℕ × ℕ) (rest : List (ℕ × ℕ)) :
    lastDay d0 (p :: rest) = lastDay p.2 rest :=
  rfl

lemma le_lastDay (rest : List (ℕ × ℕ)) :
    ∀ d : ℕ, List.Chain (· ≤ ·) d (rest.map Prod.snd) → d ≤ lastDay d rest := by
  induction rest with
  | nil => intro d _; simp [lastDay]
  | cons p r ih =>
    intro d hch
    rw [List.map_cons, List.chain_cons] at hch
    calc d ≤ p.2 := hch.1
      _ ≤ lastDay p.2 r := ih p.2 hch.2
      _ = lastDay d (p :: r) := (lastDay_cons d p r).symm

lemma unitsOnDay_cons (p : ℕ × ℕ) (rest : List (ℕ × ℕ)) (day : ℕ) :
    unitsOnDay (p :: rest) day =
      (if p.2 = day then p.1 else 0) + unitsOnDay rest day := by
  unfold unitsOnDay
  rw [List.filter_cons]
  split_ifs with h <;> simp_all

lemma execRecords_rollingCost (ops : List (ℕ × ℕ)) :
    ∀ b : BudgetConfig, (execRecords b ops).localTracking.rollingCost =
      b.localTracking.rollingCost + ((ops.map Prod.fst).sum : ℚ) * UNIT_PRICE := by
  induction ops with
  | nil => intro b; simp [execRecords]
  | cons p rest ih =>
    intro b
    rw [execRecords_cons, ih, recordUsage_fst_rollingCost, List.map_cons,
      List.sum_cons]
    push_cast
    ring

lemma execRecords_rollingPostReads (ops : List (ℕ × ℕ)) :
    ∀ b : BudgetConfig, (execRecords b ops).localTracking.rollingPostReads =
      b.localTracking.rollingPostReads + (ops.map Prod.fst).sum := by
  induction ops with
  | nil => intro b; simp [execRecords]
  | cons p rest ih =>
    intro b
    rw [execRecords_cons, ih, recordUsage_fst_rollingPostReads, List.map_cons,
      List.sum_cons]
    omega

lemma execRecords_todayCost (ops : List (ℕ × ℕ)) :
    ∀ (b : BudgetConfig) (d0 : ℕ), b.localTracking.today = d0 →
      List.Chain (· ≤ ·) d0 (ops.map Prod.snd) →
      (execRecords b ops).localTracking.todayCost =
        (if lastDay d0 ops = d0 then b.localTracking.todayCost else 0) +
          (unitsOnDay ops (lastDay d0 ops) : ℚ) * UNIT_PRICE := by
  induction ops with
  | nil => intro b d0 hb _; simp [execRecords, lastDay, unitsOnDay]
  | cons p rest ih =>
    intro b d0 hb hch
    rw [List.map_cons, List.chain_cons] at hch
    obtain ⟨hd0p, hch2⟩ := hch
    have hrec := ih (recordUsage b p.1 p.2).1 p.2
      (recordUsage_fst_today b p.1 p.2) hch2
    rw [execRecords_cons, hrec, lastDay_cons, unitsOnDay_cons,
      recordUsage_fst_todayCost, hb]
    have hle : p.2 ≤ lastDay p.2 rest := le_lastDay rest p.2 hch2
    split_ifs <;> first | (push_cast; ring1) | (exfalso; omega)

/-- Claim C2 fails as stated: a ledger that records 100 units on day 0 and
10 units on day 60 carries all 110 units in `rollingCost` ($0.55), while the
claim's trailing-30-day window at day 60 contains only the 10-unit record
($0.05) — units recorded more than 30 days ago are never dropped by the
code. -/
theorem execRecords_rolling_window_counterexample :
    (execRecords (DEFAULT_BUDGET 0 0)
        [(100, 0), (10, 60)]).localTracking.rollingCost ≠
      specC2RollingCost [(100, 0), (10, 60)] 60 := by
  norm_num [execRecords, recordUsage, rolloverDaily, DEFAULT_BUDGET,
    specC2RollingCost, UNIT_PRICE]

/-- Claim C2 (amended): for every sequence of `record(u_i)` calls with
non-decreasing days starting from a fresh ledger, `todayCost` is the sum of
the units recorded on the current (final) UTC day times the unit price, and
`rollingCost` is the sum of ALL recorded units since the ledger was created
(or last reset) times the unit price — the rolling counters have no 30-day
expiry. -/
theorem execRecords_accounting (d0 ts : ℕ) (ops : List (ℕ × ℕ))
    (hmono : List.Chain (· ≤ ·) d0 (ops.map Prod.snd)) :
    (execRecords (DEFAULT_BUDGET d0 ts) ops).localTracking.rollingCost =
      ((ops.map Prod.fst).sum : ℚ) * UNIT_PRICE ∧
    (execRecords (DEFAULT_BUDGET d0 ts) ops).localTracking.todayCost =
      (unitsOnDay ops (lastDay d0 ops) : ℚ) * UNIT_PRICE := by
  constructor
  · rw [execRecords_rollingCost]
    simp [DEFAULT_BUDGET]
  · rw [execRecords_todayCost ops (DEFAULT_BUDGET d0 ts) d0 rfl hmono]
    simp [DEFAULT_BUDGET]

/-- Witness for `execRecords_accounting`: three records (100 units on day 0,
then 10 and 7 units on day 5) from a fresh ledger give a rolling cost of
117 units' worth and a today cost of 17 units' worth. -/
theorem execRecords_accounting_witness :
    (execRecords (DEFAULT_BUDGET 0 0)
        [(100, 0), (10, 5), (7, 5)]).localTracking.rollingCost =
      (117 : ℚ) * UNIT_PRICE ∧
    (execRecords (DEFAULT_BUDGET 0 0)
        [(100, 0), (10, 5), (7, 5)]).localTracking.todayCost =
      (17 : ℚ) * UNIT_PRICE := by
  have h := execRecords_accounting 0 0 [(100, 0), (10, 5), (7, 5)]
    (by simp only [List.map_cons, List.map_nil]
        exact .cons (by omega) (.cons (by omega) (.cons (by omega) .nil)))
  constructor
  · rw [h.1]; norm_num
  · rw [h.2]; norm_num [unitsOnDay, lastDay]

/-- The ledger mutations of the source: `recordUsage`, the lazy day-rollover
a `loadBudget` applies, the CLI's `usage budget reset` / `set-daily` /
`set-monthly` branches. -/
inductive LedgerOp where
  | record (units day : ℕ)
  | load (day : ℕ)
  | reset (day nowTs : ℕ)
  | setDaily (x : ℚ)
  | setMonthly (x : ℚ)

/-- Applying one ledger mutation. -/
def applyLedgerOp (b : BudgetConfig) : LedgerOp → BudgetConfig
  | .record u d => (recordUsage b u d).1
  | .load d => rolloverDaily b d
  | .reset d t => resetBudget b d t
  | .setDaily x => setDailyLimit b x
  | .setMonthly x => setMonthlyLimit b x

/-- Running a sequence of ledger mutations. -/
def execLedgerOps (b : BudgetConfig) (ops : List LedgerOp) : BudgetConfig :=
  ops.foldl applyLedgerOp b

/-- The accounting invariant of the specification: each cost field is the
corresponding read count times the unit price. -/
def CostInvariant (b : BudgetConfig) : Prop :=
  b.localTracking.todayCost = b.localTracking.todayPostReads * UNIT_PRICE ∧
  b.localTracking.rollingCost = b.localTracking.rollingPostReads * UNIT_PRICE

lemma costInvariant_applyLedgerOp (b : BudgetConfig) (op : LedgerOp)
    (h : CostInvariant b) : CostInvariant (applyLedgerOp b op) := by
  obtain ⟨h1, h2⟩ := h
  cases op with
  | record u d =>
    show CostInvariant (recordUsage b u d).1
    constructor
    · rw [recordUsage_fst_todayCost, recordUsage_fst_todayPostReads, h1]
      split_ifs <;> push_cast <;> ring
    · rw [recordUsage_fst_rollingCost, recordUsage_fst_rollingPostReads, h2]
      push_cast
      ring
  | load d =>
    show CostInvariant (rolloverDaily b d)
    unfold rolloverDaily CostInvariant
    split_ifs <;> simp_all
  | reset d t =>
    show CostInvariant (resetBudget b d t)
    constructor <;> simp [resetBudget]
  | setDaily x =>
    exact ⟨h1, h2⟩
  | setMonthly x =>
    exact ⟨h1, h2⟩

/-- Claim C4: every state reached from a freshly created ledger by any
sequence of mutations (record-usage, day-rollover on load, reset, limit
changes) satisfies `todayCost = todayPostReads * 0.005` and
`rollingCost = rollingPostReads * 0.005`, over exact rational arithmetic. -/
theorem execLedgerOps_cost_invariant (d0 ts : ℕ) (ops : List LedgerOp) :
    CostInvariant (execLedgerOps (DEFAULT_BUDGET d0 ts) ops) := by
  have hstep : ∀ (l : List LedgerOp) (b : BudgetConfig), CostInvariant b →
      CostInvariant (execLedgerOps b l) := by
    intro l
    induction l with
    | nil => intro b hb; exact hb
    | cons op rest ih =>
      intro b hb
      exact ih (applyLedgerOp b op) (costInvariant_applyLedgerOp b op hb)
  exact hstep ops (DEFAULT_BUDGET d0 ts) ⟨by simp [DEFAULT_BUDGET], by simp [DEFAULT_BUDGET]⟩

/-- Claim C6: `reset()` zeroes the daily and rolling read counts and costs,
stamps the current day and a fresh last-reset timestamp, and leaves
`dailyLimitUsd`, `monthlyLimitUsd` and `warnThreshold` at their prior
values. -/
theorem resetBudget_zeroes_and_preserves_caps (b : BudgetConfig)
    (today nowTs : ℕ) :
    (resetBudget b today nowTs).localTracking.todayPostReads = 0 ∧
    (resetBudget b today nowTs).localTracking.todayCost = 0 ∧
    (resetBudget b today nowTs).localTracking.rollingPostReads = 0 ∧
    (resetBudget b today nowTs).localTracking.rollingCost = 0 ∧
    (resetBudget b today nowTs).localTracking.today = today ∧
    (resetBudget b today nowTs).localTracking.lastReset = nowTs ∧
    (resetBudget b today nowTs).dailyLimitUsd = b.dailyLimitUsd ∧
    (resetBudget b today nowTs).monthlyLimitUsd = b.monthlyLimitUsd ∧
    (resetBudget b today nowTs).warnThreshold = b.warnThreshold :=
  ⟨rfl, rfl, rfl, rfl, rfl, rfl, rfl, rfl, rfl⟩

/-- JS `x || d` on an optional string field: `undefined` and the empty
string are falsy and yield the default. -/
def jsOrString (x : Option String) (d : String) : String :=
  match x with
  | none => d
  | some s => if s = "" then d else s

/-- JS `x || d` on an optional numeric field: `undefined` and `0` are falsy
and yield the default. -/
def jsOrNat (x : Option ℕ) (d : ℕ) : ℕ :=
  match x with
  | none => d
  | some n => if n = 0 then d else n

/-- JS `.map(...).filter(Boolean)` over possibly-missing strings: drops
`undefined` and the empty string. -/
def jsFilterBoolean (l : List (Option String)) : List String :=
  l.filterMap fun o => o.bind fun s => if s = "" then none else some s

/-- The `public_metrics` block of a raw item; every counter may be absent. -/
structure RawMetrics where
  like_count : Option ℕ
  retweet_count : Option ℕ
  reply_count : Option ℕ
  quote_count : Option ℕ
  impression_count : Option ℕ
  bookmark_count : Option ℕ
deriving DecidableEq, Repr

/-- One element of `entities.urls`. -/
structure RawUrlEntity where
  expanded_url : Option String
deriving DecidableEq, Repr

/-- One element of `entities.mentions`. -/
structure RawMentionEntity where
  username : Option String
deriving DecidableEq, Repr

/-- One element of `entities.hashtags`. -/
structure RawHashtagEntity where
  tag : Option String
deriving DecidableEq, Repr

/-- The `entities` block of a raw item; each array may be absent. -/
structure RawEntities where
  urls : Option (List RawUrlEntity)
  mentions : Option (List RawMentionEntity)
  hashtags : Option (List RawHashtagEntity)
deriving DecidableEq, Repr

/-- A side-loaded user record from `includes.users`. -/
structure RawUser where
  id : String
  username : Option String
  name : Option String
deriving DecidableEq, Repr

/-- A raw item of a response page. -/
structure RawTweet where
  id : String
  text : String
  author_id : String
  created_at : String
  conversation_id : String
  public_metrics : Option RawMetrics
  entities : Option RawEntities
deriving DecidableEq, Repr

/-- The `RawResponse` shape of `src/lib/api.ts`: `data` may be absent
(`if (!raw.data) return []`), `includes.users` may be absent
(`raw.includes?.users || []`), and `meta.next_token` is the continuation
token. -/
structure RawResponse where
  data : Option (List RawTweet)
  includes_users : Option (List RawUser)
  meta_next_token : Option String
deriving DecidableEq, Repr

/-- The metrics block of the normalized `Tweet` interface. -/
structure TweetMetrics where
  likes : ℕ
  retweets : ℕ
  replies : ℕ
  quotes : ℕ
  impressions : ℕ
  bookmarks : ℕ
deriving DecidableEq, Repr

/-- The normalized `Tweet` interface of `src/lib/api.ts`. -/
structure Tweet where
  id : String
  text : String
  author_id : String
  username : String
  name : String
  created_at : String
  conversation_id : String
  metrics : TweetMetrics
  urls : List String
  mentions : List String
  hashtags : List String
  tweet_url : String
deriving DecidableEq, Repr

/-- The `users` side table `parseTweets` builds from `includes.users`:
JS object assignment keyed by `u.id`, so a later user with the same id
overwrites an earlier one. -/
def usersIndex (l : List RawUser) (aid : String) : Option RawUser :=
  l.foldl (fun acc u => if u.id = aid then some u else acc) none

/-- Normalisation of one raw item inside `parseTweets`' `map`: the author is
joined through the side table (`users[t.author_id] || {}`), missing
username/name default to `"?"`, missing counters to `0`, missing entity
arrays to `[]`. -/
def parseTweetWith (users : String → Option RawUser) (t : RawTweet) : Tweet :=
  let u := users t.author_id
  let m := t.public_metrics
  let uname := jsOrString (u.bind RawUser.username) "?"
  { id := t.id
    text := t.text
    author_id := t.author_id
    username := uname
    name := jsOrString (u.bind RawUser.name) "?"
    created_at := t.created_at
    conversation_id := t.conversation_id
    metrics :=
      { likes := jsOrNat (m.bind RawMetrics.like_count) 0
        retweets := jsOrNat (m.bind RawMetrics.retweet_count) 0
        replies := jsOrNat (m.bind RawMetrics.reply_count) 0
        quotes := jsOrNat (m.bind RawMetrics.quote_count) 0
        impressions := jsOrNat (m.bind RawMetrics.impression_count) 0
        bookmarks := jsOrNat (m.bind RawMetrics.bookmark_count) 0 }
    urls := jsFilterBoolean
      (((t.entities.bind RawEntities.urls).getD []).map RawUrlEntity.expanded_url)
    mentions := jsFilterBoolean
      (((t.entities.bind RawEntities.mentions).getD []).map
        RawMentionEntity.username)
    hashtags := jsFilterBoolean
      (((t.entities.bind RawEntities.hashtags).getD []).map RawHashtagEntity.tag)
    tweet_url := "https://x.com/" ++ uname ++ "/status/" ++ t.id }

/-- The `parseTweets` function of `src/lib/api.ts`. -/
def parseTweets (raw : RawResponse) : List Tweet :=
  match raw.data with
  | none => []
  | some items =>
    items.map (parseTweetWith (usersIndex (raw.includes_users.getD [])))

/-- Claim C7: `parseTweets` is total over missing fields — every raw item
yields exactly one normalized record (the page never fails), an item whose
author is absent from the side table gets the placeholder `"?"` identity and
name, absent `public_metrics` give all-zero counters, and an absent
`entities` block gives empty url/mention/hashtag lists. -/
theorem parseTweets_total_with_defaults :
    (∀ raw : RawResponse,
      (parseTweets raw).length = (raw.data.getD []).length) ∧
    (∀ (users : String → Option RawUser) (t : RawTweet),
      users t.author_id = none →
        (parseTweetWith users t).username = "?" ∧
        (parseTweetWith users t).name = "?") ∧
    (∀ (users : String → Option RawUser) (t : RawTweet),
      t.public_metrics = none →
        (parseTweetWith users t).metrics = ⟨0, 0, 0, 0, 0, 0⟩) ∧
    (∀ (users : String → Option RawUser) (t : RawTweet),
      t.entities = none →
        (parseTweetWith users t).urls = [] ∧
        (parseTweetWith users t).mentions = [] ∧
        (parseTweetWith users t).hashtags = []) := by
  refine ⟨?_, ?_, ?_, ?_⟩
  · intro raw
    cases h : raw.data <;> simp [parseTweets, h]
  · intro users t h
    constructor <;> simp [parseTweetWith, h, jsOrString]
  · intro users t h
    simp [parseTweetWith, h, jsOrNat]
  · intro users t h
    refine ⟨?_, ?_, ?_⟩ <;> simp [parseTweetWith, h, jsFilterBoolean]

/-- A raw item with no metrics block and no entities block. -/
def wTweet : RawTweet :=
  { id := "1"
    text := "hello"
    author_id := "a1"
    created_at := "2024-01-01T00:00:00Z"
    conversation_id := "1"
    public_metrics := none
    entities := none }

/-- A one-item page whose `includes.users` table is absent. -/
def wRawResponse : RawResponse :=
  { data := some [wTweet]
    includes_users := none
    meta_next_token := none }

/-- Witness for `parseTweets_total_with_defaults` on a concrete raw item
whose author, metrics and entities are all missing. -/
theorem parseTweets_total_with_defaults_witness :
    (parseTweetWith (fun _ => none) wTweet).username = "?" ∧
    (parseTweetWith (fun _ => none) wTweet).metrics = ⟨0, 0, 0, 0, 0, 0⟩ ∧
    (parseTweetWith (fun _ => none) wTweet).urls = [] ∧
    (parseTweets wRawResponse).length = 1 := by
  have h := parseTweets_total_with_defaults
  refine ⟨(h.2.1 (fun _ => none) wTweet rfl).1,
    h.2.2.1 (fun _ => none) wTweet rfl,
    (h.2.2.2 (fun _ => none) wTweet rfl).1, ?_⟩
  rw [h.1 wRawResponse]
  rfl

/-- The `dedupe` function of `src/lib/api.ts`: a filter over the list
carrying the mutable `seen` set of ids (here an explicit list). -/
def dedupeAux (seen : List String) : List Tweet → List Tweet
  | [] => []
  | t :: ts =>
    if t.id ∈ seen then dedupeAux seen ts
    else t :: dedupeAux (t.id :: seen) ts

/-- The exported `dedupe`: the filter starts with an empty `seen` set. -/
def dedupe (tweets : List Tweet) : List Tweet :=
  dedupeAux [] tweets

/-- The deduplication rule exactly as claim C9 states it, written from the
specification's words: keep, for each record identity, exactly the first
occurrence, in the original order. -/
def keepFirst : List Tweet → List Tweet
  | [] => []
  | t :: ts => t :: keepFirst (ts.filter fun s => s.id ≠ t.id)
termination_by l => l.length
decreasing_by
  simp only [List.length_cons]
  exact Nat.lt_succ_of_le (List.length_filter_le _ _)

lemma dedupeAux_eq_keepFirst (l : List Tweet) :
    ∀ seen : List String,
      dedupeAux seen l = keepFirst (l.filter fun t => t.id ∉ seen) := by
  induction l with
  | nil => intro seen; rw [List.filter_nil, dedupeAux, keepFirst]
  | cons t ts ih =>
    intro seen
    rw [List.filter_cons]
    by_cases h : t.id ∈ seen
    · rw [dedupeAux, if_pos h, ih seen]
      simp [h]
    · rw [dedupeAux, if_neg h, ih (t.id :: seen)]
      have hkeep : (decide (t.id ∉ seen)) = true := by simp [h]
      rw [hkeep, if_pos rfl, keepFirst, List.filter_filter]
      congr 2
      apply List.filter_congr
      intro s _
      simp only [List.mem_cons, decide_not]
      cases hs : decide (s.id = t.id) <;> cases hs2 : decide (s.id ∈ seen) <;>
        simp_all

lemma keepFirst_sublist (l : List Tweet) : (keepFirst l).Sublist l := by
  induction l using keepFirst.induct with
  | case1 => simp [keepFirst]
  | case2 t ts ih =>
    rw [keepFirst]
    exact (ih.trans (List.filter_sublist ts)).cons₂ t

lemma keepFirst_id_nodup (l : List Tweet) :
    ((keepFirst l).map Tweet.id).Nodup := by
  induction l using keepFirst.induct with
  | case1 => simp [keepFirst]
  | case2 t ts ih =>
    rw [keepFirst, List.map_cons, List.nodup_cons]
    refine ⟨?_, ih⟩
    intro hmem
    obtain ⟨s, hs, hsid⟩ := List.mem_map.mp hmem
    have hsub := (keepFirst_sublist (ts.filter fun s => s.id ≠ t.id)).subset hs
    have hne := List.of_mem_filter hsub
    simp only [decide_not, Bool.not_eq_eq_eq_not, Bool.not_true,
      decide_eq_false_iff_not] at hne
    exact hne hsid

lemma keepFirst_eq_self (l : List Tweet) (h : (l.map Tweet.id).Nodup) :
    keepFirst l = l := by
  induction l with
  | nil => rw [keepFirst]
  | cons t ts ih =>
    rw [List.map_cons, List.nodup_cons] at h
    rw [keepFirst, List.filter_eq_self.mpr, ih h.2]
    intro s hs
    have hne : s.id ≠ t.id := fun hsid =>
      h.1 (List.mem_map.mpr ⟨s, hs, hsid⟩)
    simpa using hne

/-- Claim C9: `dedupe` is idempotent, equals the keep-the-first-occurrence
filter the specification describes, and is a (stable) subsequence of its
input. -/
theorem dedupe_idempotent_keeps_first (x : List Tweet) :
    dedupe (dedupe x) = dedupe x ∧
    dedupe x = keepFirst x ∧
    (dedupe x).Sublist x := by
  have hkf : ∀ y : List Tweet, dedupe y = keepFirst y := by
    intro y
    rw [dedupe, dedupeAux_eq_keepFirst]
    congr 1
    apply List.filter_eq_self.mpr
    intro s _
    simp
  refine ⟨?_, hkf x, ?_⟩
  · rw [hkf x, hkf (keepFirst x)]
    exact keepFirst_eq_self _ (keepFirst_id_nodup x)
  · rw [hkf x]
    exact keepFirst_sublist x

/-- An event of the `search` page loop: a page request being issued, or the
fixed `RATE_DELAY_MS` inter-page sleep. -/
inductive FetchEvent where
  | request (page : ℕ)
  | delay
deriving DecidableEq, Repr

/-- The `search` page loop of `src/lib/api.ts`: `for (page = 0; page < pages;
page++) { apiGet; parseTweets; append; nextToken = meta.next_token; if
(!nextToken) break; if (page < pages - 1) await sleep(RATE_DELAY_MS) }`.
`resp` maps the page number to the page the remote returns (the continuation
token threading through the URL is abstracted by indexing pages in fetch
order); the second argument is the remaining iteration budget
`pages - page`, which realises the `page < pages` loop condition.  Returns
the event trace and the concatenated normalized records. -/
def searchLoopGo (resp : ℕ → RawResponse) (pages : ℕ) :
    ℕ → ℕ → List FetchEvent × List Tweet
  | _, 0 => ([], [])
  | page, fuel + 1 =>
    let raw := resp page
    let tweets := parseTweets raw
    match raw.meta_next_token with
    | none => ([.request page], tweets)
    | some _ =>
      if page < pages - 1 then
        let rest := searchLoopGo resp pages (page + 1) fuel
        (.request page :: .delay :: rest.1, tweets ++ rest.2)
      else ([.request page], tweets)

/-- The `search` function's page loop, entered at page 0. -/
def searchPages (resp : ℕ → RawResponse) (pages : ℕ) :
    List FetchEvent × List Tweet :=
  searchLoopGo resp pages 0 pages

/-- The event trace claim C5 predicts for an `m`-page fetch starting at page
`p`: requests for pages `p, …, p+m-1` with one delay strictly between
consecutive requests and none after the last. -/
def pageTraceFrom (p : ℕ) : ℕ → List FetchEvent
  | 0 => []
  | m + 1 =>
    if m = 0 then [.request p]
    else .request p :: .delay :: pageTraceFrom (p + 1) m

/-- The records claim C5 predicts: the pages' normalized records concatenated
in fetch order, without re-sorting. -/
def tweetsFrom (resp : ℕ → RawResponse) (p : ℕ) : ℕ → List Tweet
  | 0 => []
  | m + 1 => parseTweets (resp p) ++ tweetsFrom resp (p + 1) m

/-- Whether an event is a page request. -/
def FetchEvent.isRequest : FetchEvent → Bool
  | .request _ => true
  | .delay => false

lemma pageTraceFrom_countP (m : ℕ) :
    ∀ p : ℕ, (pageTraceFrom p m).countP FetchEvent.isRequest = m := by
  induction m with
  | zero => intro p; rfl
  | succ k ih =>
    intro p
    rw [pageTraceFrom]
    by_cases hk : k = 0
    · subst hk; rfl
    · rw [if_neg hk]
      simp [List.countP_cons, FetchEvent.isRequest, ih (p + 1)]

lemma pageTraceFrom_ne_nil (m : ℕ) (p : ℕ) (hm : 1 ≤ m) :
    pageTraceFrom p m ≠ [] := by
  obtain ⟨k, rfl⟩ : ∃ k, m = k + 1 := ⟨m - 1, by omega⟩
  rw [pageTraceFrom]
  split_ifs <;> simp

lemma pageTraceFrom_getLast (m : ℕ) :
    ∀ p : ℕ, 1 ≤ m →
      (pageTraceFrom p m).getLast? ≠ some FetchEvent.delay := by
  induction m with
  | zero => omega
  | succ k ih =>
    intro p _
    rw [pageTraceFrom]
    by_cases hk : k = 0
    · subst hk; simp
    · rw [if_neg hk]
      have hne := pageTraceFrom_ne_nil k (p + 1) (by omega)
      obtain ⟨e, l, hel⟩ : ∃ e l, pageTraceFrom (p + 1) k = e :: l := by
        cases h : pageTraceFrom (p + 1) k with
        | nil => exact absurd h hne
        | cons e l => exact ⟨e, l, rfl⟩
      have h2 := ih (p + 1) (by omega)
      rw [hel] at h2
      rw [hel, List.getLast?_cons_cons, List.getLast?_cons_cons]
      exact h2

lemma searchLoopGo_spec (resp : ℕ → RawResponse) (pages : ℕ) (k : ℕ) :
    ∀ p : ℕ, p + k + 1 ≤ pages →
      (∀ i, i + 1 < k + 1 → ((resp (p + i)).meta_next_token).isSome) →
      (resp (p + k)).meta_next_token = none →
      searchLoopGo resp pages p (pages - p) =
        (pageTraceFrom p (k + 1), tweetsFrom resp p (k + 1)) := by
  induction k with
  | zero =>
    intro p hp _ hlast
    rw [Nat.add_zero] at hlast
    obtain ⟨f, hf⟩ : ∃ f, pages - p = f + 1 := ⟨pages - p - 1, by omega⟩
    rw [hf, searchLoopGo]
    simp [hlast, pageTraceFrom, tweetsFrom]
  | succ k ih =>
    intro p hp htok hlast
    obtain ⟨f, hf⟩ : ∃ f, pages - p = f + 1 := ⟨pages - p - 1, by omega⟩
    have htok0 : ((resp p).meta_next_token).isSome := by
      have := htok 0 (by omega)
      simpa using this
    obtain ⟨tk, htk⟩ := Option.isSome_iff_exists.mp htok0
    have hlt : p < pages - 1 := by omega
    have hfuel : f = pages - (p + 1) := by omega
    have hrec := ih (p + 1) (by omega)
      (fun i hi => by
        have := htok (i + 1) (by omega)
        rwa [show p + (i + 1) = p + 1 + i by omega] at this)
      (by rwa [show p + 1 + k = p + (k + 1) by omega])
    rw [hf, searchLoopGo, htk]
    simp only [if_pos hlt, hfuel ▸ hrec]
    simp [pageTraceFrom, tweetsFrom]

/-- Claim C5: when the remote returns a continuation token on every page
before page `m` and none on page `m` (with `m` within the requested page
budget), the loop issues exactly `m` requests, the trace is request/delay
alternation ending in the final request (the inter-page delay occurs strictly
between consecutive requests and never after the last), and the result is
the pages' normalized records concatenated in fetch order. -/
theorem searchPages_pagination (resp : ℕ → RawResponse) (pages m : ℕ)
    (hm : 1 ≤ m) (hpages : m ≤ pages)
    (htok : ∀ i, i + 1 < m → ((resp i).meta_next_token).isSome)
    (hlast : (resp (m - 1)).meta_next_token = none) :
    searchPages resp pages = (pageTraceFrom 0 m, tweetsFrom resp 0 m) ∧
    (searchPages resp pages).1.countP FetchEvent.isRequest = m ∧
    (searchPages resp pages).1.getLast? ≠ some FetchEvent.delay := by
  obtain ⟨k, rfl⟩ : ∃ k, m = k + 1 := ⟨m - 1, by omega⟩
  have hmain : searchPages resp pages =
      (pageTraceFrom 0 (k + 1), tweetsFrom resp 0 (k + 1)) := by
    have := searchLoopGo_spec resp pages k 0 (by omega)
      (fun i hi => by simpa using htok i hi)
      (by simpa using hlast)
    rwa [Nat.sub_zero] at this
  refine ⟨hmain, ?_, ?_⟩
  · rw [hmain]
    exact pageTraceFrom_countP (k + 1) 0
  · rw [hmain]
    exact pageTraceFrom_getLast (k + 1) 0 (by omega)

/-- A concrete first page: one item and a continuation token. -/
def wPageA : RawResponse :=
  { data := some [{ wTweet with id := "p1" }]
    includes_users := none
    meta_next_token := some "tok" }

/-- A concrete second page: one item and no continuation token. -/
def wPageB : RawResponse :=
  { data := some [{ wTweet with id := "p2" }]
    includes_users := none
    meta_next_token := none }

/-- A concrete remote: page 0 carries a token, page 1 does not. -/
def wResp : ℕ → RawResponse :=
  fun i => if i = 0 then wPageA else wPageB

/-- Witness for `searchPages_pagination`: a two-page fetch with a token on
page 0 and none on page 1 issues requests 0 and 1 with the delay strictly
between them. -/
theorem searchPages_pagination_witness :
    searchPages wResp 2 =
      ([.request 0, .delay, .request 1], tweetsFrom wResp 0 2) := by
  have h := searchPages_pagination wResp 2 2 (by omega) (by omega)
    (fun i hi => by
      have hi0 : i = 0 := by omega
      subst hi0
      rfl)
    rfl
  rw [h.1]
  rfl

/-- An HTTP response as `apiGet` inspects it: the status code, the parsed
`x-rate-limit-reset` header in epoch seconds (`none` when absent), and the
body text. -/
structure HttpResponse where
  status : ℕ
  rateLimitReset : Option ℤ
  body : String
deriving DecidableEq, Repr

/-- The errors `apiGet` throws. -/
inductive ApiError where
  | rateLimited (waitSec : ℤ)
  | fetchError (status : ℕ) (body : String)
deriving DecidableEq, Repr

/-- The `apiGet` function of `src/lib/api.ts` after the transport returns:
on 429 it throws a rate-limited error whose wait is
`Math.max(reset - now, 1)` seconds from the reset header, or 60 when the
header is absent; on any other non-2xx (`!res.ok`) it throws a fetch error
carrying the status and the body truncated to 200 characters; otherwise it
returns the body. -/
def apiGet (res : HttpResponse) (nowSec : ℤ) : Except ApiError String :=
  if res.status = 429 then
    let waitSec : ℤ :=
      match res.rateLimitReset with
      | some r => max (r - nowSec) 1
      | none => 60
    .error (.rateLimited waitSec)
  else if ¬ (200 ≤ res.status ∧ res.status < 300) then
    .error (.fetchError res.status (res.body.take 200))
  else .ok res.body

/-- Claim C8: every 429 response surfaces a rate-limited error to the caller
(the function throws — it never retries); with the reset header present the
wait is `max(reset − now, 1)` seconds (hence at least 1), and with the
header absent it is the fixed 60-second fallback. -/
theorem apiGet_rate_limited (res : HttpResponse) (nowSec : ℤ)
    (h : res.status = 429) :
    (∀ r : ℤ, res.rateLimitReset = some r →
      apiGet res nowSec = .error (.rateLimited (max (r - nowSec) 1)) ∧
        1 ≤ max (r - nowSec) 1) ∧
    (res.rateLimitReset = none →
      apiGet res nowSec = .error (.rateLimited 60)) := by
  constructor
  · intro r hr
    refine ⟨?_, le_max_right _ _⟩
    unfold apiGet
    rw [if_pos h, hr]
  · intro hr
    unfold apiGet
    rw [if_pos h, hr]

/-- Witness for `apiGet_rate_limited`: a 429 at epoch second 90 with reset
header 100 waits 10 seconds; without the header it waits 60. -/
theorem apiGet_rate_limited_witness :
    apiGet ⟨429, some 100, ""⟩ 90 = .error (.rateLimited 10) ∧
    apiGet ⟨429, none, ""⟩ 90 = .error (.rateLimited 60) := by
  have h1 := (apiGet_rate_limited ⟨429, some 100, ""⟩ 90 rfl).1 100 rfl
  have h2 := (apiGet_rate_limited ⟨429, none, ""⟩ 90 rfl).2 rfl
  refine ⟨?_, h2⟩
  rw [h1.1]
  norm_num

/-- The shorthand regex `^(\d+)(m|h|d)$` of `parseSince`: one or more digits
followed by a single unit character, consuming the whole string.  Returns
the parsed number and the unit on a match. -/
def shorthandMatch (s : String) : Option (ℕ × Char) :=
  let cs := s.toList
  match cs.getLast? with
  | none => none
  | some u =>
    if (u = 'm' ∨ u = 'h' ∨ u = 'd') ∧ cs.dropLast ≠ [] ∧
        (∀ c ∈ cs.dropLast, c.isDigit) then
      some (cs.dropLast.foldl (fun n c => 10 * n + (c.toNat - 48)) 0, u)
    else none

/-- The millisecond duration of a shorthand: minutes, hours or days. -/
def shorthandMs (num : ℕ) (u : Char) : ℤ :=
  if u = 'm' then num * 60000
  else if u = 'h' then num * 3600000
  else num * 86400000

/-- The largest time value (in milliseconds) a JS `Date` can represent:
8.64e15.  `new Date(t)` for `|t|` beyond this bound is an Invalid Date, and
calling `toISOString()` on it throws a `RangeError`. -/
def MAX_DATE_MS : ℤ := 8640000000000000

/-- The uncaught `RangeError` that escapes `parseSince`'s shorthand branch. -/
inductive DateRangeErr where
  | rangeError
deriving DecidableEq, Repr

/-- The `parseSince` function of `src/lib/api.ts`.  Millisecond timestamps
stand in for the ISO strings they render to.  The shorthand branch computes
`new Date(Date.now() - ms).toISOString()` with NO try/catch, so when the
time value `nowMs - ms` lies outside the representable `Date` range the
`RangeError` from `toISOString()` propagates out of `parseSince` — modelled
as the `Except` error.  In the ISO branch, `parseDate` abstracts the guarded
`new Date(s).toISOString()`: there the source catches the `RangeError` of an
unparseable date and converts it to `null`, so `parseDate`'s `none` stays
inside the `ok` result. -/
def parseSince (parseDate : String → Option ℤ) (nowMs : ℤ)
    (since : String) : Except DateRangeErr (Option ℤ) :=
  match shorthandMatch since with
  | some (num, u) =>
    let t := nowMs - shorthandMs num u
    if t < -MAX_DATE_MS ∨ MAX_DATE_MS < t then .error .rangeError
    else .ok (some t)
  | none =>
    if 'T' ∈ since.toList ∨ '-' ∈ since.toList then .ok (parseDate since)
    else .ok none

/-- Claim C10 fails as stated: `"999999999d"` is a recognized shorthand, yet
at a present-day clock (epoch ms 1.7e12) its duration of about 8.64e16 ms
puts the time value far outside the representable `Date` range, so the
source's unguarded `toISOString()` throws an uncaught `RangeError` instead
of returning a timestamp — `parseSince` is not total on shorthands. -/
theorem parseSince_shorthand_throws_counterexample :
    shorthandMatch "999999999d" = some (999999999, 'd') ∧
    parseSince (fun _ => none) 1700000000000 "999999999d" =
      .error DateRangeErr.rangeError := by
  constructor
  · decide
  · rfl

/-- Claim C10 (amended): the shorthand branch returns `now − duration` when
that time value is within the representable `Date` range (±8.64e15 ms) and
throws the uncaught `RangeError` when it is not; for every non-shorthand
input `parseSince` is total and never throws — a string containing `T` or
`-` defers to the guarded date parser, whose invalid-date failure becomes
`null` rather than an error, and every other input yields `null`. -/
theorem parseSince_range_characterisation
    (parseDate : String → Option ℤ) (nowMs : ℤ) (s : String) :
    (∀ num u, shorthandMatch s = some (num, u) →
      -MAX_DATE_MS ≤ nowMs - shorthandMs num u ∧
        nowMs - shorthandMs num u ≤ MAX_DATE_MS →
      parseSince parseDate nowMs s = .ok (some (nowMs - shorthandMs num u))) ∧
    (∀ num u, shorthandMatch s = some (num, u) →
      (nowMs - shorthandMs num u < -MAX_DATE_MS ∨
        MAX_DATE_MS < nowMs - shorthandMs num u) →
      parseSince parseDate nowMs s = .error DateRangeErr.rangeError) ∧
    (shorthandMatch s = none → ('T' ∈ s.toList ∨ '-' ∈ s.toList) →
      parseSince parseDate nowMs s = .ok (parseDate s)) ∧
    (shorthandMatch s = none → ¬ ('T' ∈ s.toList ∨ '-' ∈ s.toList) →
      parseSince parseDate nowMs s = .ok none) ∧
    (shorthandMatch s = none →
      ∀ e : DateRangeErr, parseSince parseDate nowMs s ≠ .error e) := by
  refine ⟨?_, ?_, ?_, ?_, ?_⟩
  · intro num u hm hin
    unfold parseSince
    rw [hm]
    exact if_neg (not_or.mpr ⟨not_lt.mpr hin.1, not_lt.mpr hin.2⟩)
  · intro num u hm hout
    unfold parseSince
    rw [hm]
    exact if_pos hout
  · intro hm hc
    unfold parseSince
    rw [hm, if_pos hc]
  · intro hm hc
    unfold parseSince
    rw [hm, if_neg hc]
  · intro hm e
    unfold parseSince
    rw [hm]
    split_ifs <;> simp

/-- Witness for `parseSince_range_characterisation`: the in-range shorthand
`"3h"` yields a timestamp three hours before now, and `"x"` (no shorthand,
no `T` or `-`) yields null inside the ok result. -/
theorem parseSince_range_characterisation_witness :
    parseSince (fun _ => none) 0 "3h" = .ok (some (0 - shorthandMs 3 'h')) ∧
    parseSince (fun _ => none) 0 "x" = .ok none := by
  have h3 := parseSince_range_characterisation (fun _ => none) 0 "3h"
  have hx := parseSince_range_characterisation (fun _ => none) 0 "x"
  exact ⟨h3.1 3 'h' (by decide) (by decide),
    hx.2.2.2.1 (by decide) (by decide)⟩

end XSearch
